import Mathlib

/-!
Verification of the EE175 object-localization core.

This file gives a shallow embedding of the Python sources
`color_filter.py` (class `ColorFilter`) and `position_tracker.py`
(class `PositionTracker`) and proves the specified properties about it.

Conventions of the embedding:
* Python floats (OpenCV areas, image moments, YOLO box coordinates,
  confidences) are modelled as exact rationals.
* Python `int(...)` applied to a number is truncation toward zero
  (`pyInt` below); Python `//` on integers is floor division (`Int.fdiv`).
* Python `str.lower()` is charwise lowercasing (`pyLower` below).
* OpenCV library routines (`cv2.cvtColor`, `cv2.morphologyEx`,
  `cv2.findContours`, `cv2.contourArea`, `cv2.boundingRect`,
  `cv2.moments`) are external to the repository; they enter the
  embedding as the fields of a `CvOracle`, over which all theorems
  quantify.  `cv2.inRange` and `cv2.bitwise_or` are simple pointwise
  operations and are embedded concretely.
* A Python method that raises is modelled as returning the
  (possibly already mutated) object state together with an optional
  error; the state component records the field values the object holds
  after the call, whether or not an exception propagated.
-/

/-- Python `str.lower()`: lowercase every character of the string. -/
def pyLower (s : String) : String := ⟨s.data.map Char.toLower⟩

/-- Python `int(x)` on an exact numeric value: truncation toward zero. -/
def pyInt (q : ℚ) : Int := if 0 ≤ q then ⌊q⌋ else ⌈q⌉

/-- A three-channel pixel value (used both for BGR input pixels and for
HSV triples). -/
abbrev Pixel3 := Int × Int × Int

/-- A three-channel image: rows of pixels. -/
abbrev Image3 := List (List Pixel3)

/-- A BGR camera frame. -/
abbrev Frame := Image3

/-- A binary mask: one Boolean per pixel (true = object present). -/
abbrev Mask := List (List Bool)

/-- A contour as returned by `cv2.findContours`: a sequence of boundary
points. -/
abbrev Contour := List (Int × Int)

/-- The OpenCV routines used by `color_filter.py` that are external
library code (not part of this repository).  Every theorem about the
color path quantifies over this oracle. -/
structure CvOracle where
  /-- `cv2.cvtColor(frame, cv2.COLOR_BGR2HSV)`. -/
  cvtColor : Frame → Image3
  /-- `cv2.morphologyEx(mask, cv2.MORPH_OPEN, kernel)` with the fixed
  5x5 ones kernel. -/
  morphOpen : Mask → Mask
  /-- `cv2.morphologyEx(mask, cv2.MORPH_CLOSE, kernel)` with the fixed
  5x5 ones kernel. -/
  morphClose : Mask → Mask
  /-- `cv2.findContours(mask, cv2.RETR_EXTERNAL, cv2.CHAIN_APPROX_SIMPLE)`,
  first component: the discovered external contours, in scan order. -/
  findContours : Mask → List Contour
  /-- `cv2.contourArea(contour)`: the enclosed polygon area. -/
  contourArea : Contour → ℚ
  /-- `cv2.boundingRect(contour)`: the tuple `(x, y, w, h)`. -/
  boundingRect : Contour → Int × Int × Int × Int
  /-- `cv2.moments(contour)`, restricted to the entries the source
  reads: `(m00, m10, m01)`. -/
  moments : Contour → ℚ × ℚ × ℚ

/-- The Python exception raised by `color_filter.py` on an unknown color
name (the spec calls it `UnknownColorError`; the source raises
`ValueError`). -/
inductive PyError where
  | valueError
deriving DecidableEq

/-- The mutable state of a `ColorFilter` instance: its two attributes. -/
structure ColorFilter where
  target_color : String
  min_area : ℚ
deriving DecidableEq

/-- `ColorFilter.COLOR_RANGES`: the predefined HSV ranges, transcribed
from `color_filter.py` lines 14-41.  Each entry maps a color name to a
list of `(lower, upper)` HSV interval pairs. -/
def ColorFilter.COLOR_RANGES : List (String × List (Pixel3 × Pixel3)) :=
  [ (("red"), [((0, 100, 100), (10, 255, 255)), ((160, 100, 100), (180, 255, 255))]),
    (("blue"), [((100, 100, 100), (130, 255, 255))]),
    (("green"), [((40, 50, 50), (80, 255, 255))]),
    (("yellow"), [((20, 100, 100), (30, 255, 255))]),
    (("orange"), [((10, 100, 100), (20, 255, 255))]),
    (("purple"), [((130, 50, 50), (160, 255, 255))]),
    (("white"), [((0, 0, 200), (180, 30, 255))]),
    (("black"), [((0, 0, 0), (180, 255, 50))]) ]

/-- `ColorFilter.get_available_colors()`: the list of registered color
names (the dict keys, in insertion order). -/
def ColorFilter.get_available_colors : List String :=
  ColorFilter.COLOR_RANGES.map Prod.fst

/-- `ColorFilter.__init__(target_color, min_area)`: stores the lowered
name and the threshold, then validates the lowered name against the
registry keys; an unrecognized name raises `ValueError`.  The state
component is the attribute assignment the body performed before the
check. -/
def ColorFilter.init (target_color : String) (min_area : ℚ) :
    ColorFilter × Option PyError :=
  let s : ColorFilter := { target_color := pyLower target_color, min_area := min_area }
  (s, if s.target_color ∈ ColorFilter.get_available_colors then none
      else some PyError.valueError)

/-- `ColorFilter.set_color(color)`: assigns the lowered name to the
`target_color` attribute and only then validates it, raising
`ValueError` when it is not registered.  The returned state is the
attribute value after the body ran, whether or not the error was
raised. -/
def ColorFilter.set_color (s : ColorFilter) (color : String) :
    ColorFilter × Option PyError :=
  let s2 : ColorFilter := { s with target_color := pyLower color }
  (s2, if s2.target_color ∈ ColorFilter.get_available_colors then none
       else some PyError.valueError)

/-- `cv2.inRange(hsv, lower, upper)`: componentwise inclusive interval
test, per pixel. -/
def cvInRange (img : Image3) (lo hi : Pixel3) : Mask :=
  img.map (fun row => row.map (fun p =>
    decide (lo.1 ≤ p.1 ∧ p.1 ≤ hi.1) &&
    decide (lo.2.1 ≤ p.2.1 ∧ p.2.1 ≤ hi.2.1) &&
    decide (lo.2.2 ≤ p.2.2 ∧ p.2.2 ≤ hi.2.2)))

/-- `cv2.bitwise_or(a, b)` on binary masks: pointwise disjunction. -/
def cvBitwiseOr (a b : Mask) : Mask :=
  a.zipWith (fun ra rb => ra.zipWith (fun x y => x || y) rb) b

/-- `ColorFilter.create_mask(frame)`: convert to HSV, union the
per-interval range masks of the current target color, then apply
morphological opening and closing.  The range lookup mirrors
`self.COLOR_RANGES[self.target_color]`; the `getD []` default is
unreachable for states whose color passed validation. -/
def ColorFilter.create_mask (cv : CvOracle) (s : ColorFilter) (frame : Frame) : Mask :=
  let hsv := cv.cvtColor frame
  let ranges := (ColorFilter.COLOR_RANGES.lookup s.target_color).getD []
  let mask0 : Mask := hsv.map (fun row => row.map (fun _ => false))
  let mask := ranges.foldl (fun m r => cvBitwiseOr m (cvInRange hsv r.1 r.2)) mask0
  cv.morphClose (cv.morphOpen mask)

/-- One entry of the list built by `ColorFilter.find_colored_objects`. -/
structure DetectedObject where
  center : Int × Int
  area : ℚ
  bbox : Int × Int × Int × Int
  contour : Contour
  color : String
deriving DecidableEq

/-- The loop body of `find_colored_objects` for one surviving contour:
bounding box, moment-based center with the zero-mass fallback
`(x + w // 2, y + h // 2)`, and the result record. -/
def ColorFilter.objectOf (cv : CvOracle) (color : String) (c : Contour) : DetectedObject :=
  let r := cv.boundingRect c
  let m := cv.moments c
  let center : Int × Int :=
    if m.1 ≠ 0 then (pyInt (m.2.1 / m.1), pyInt (m.2.2 / m.1))
    else (r.1 + Int.fdiv r.2.2.1 2, r.2.1 + Int.fdiv r.2.2.2 2)
  { center := center,
    area := cv.contourArea c,
    bbox := (r.1, r.2.1, r.1 + r.2.2.1, r.2.1 + r.2.2.2),
    contour := c,
    color := color }

/-- The contour loop of `find_colored_objects` before the final sort:
contours whose area is below `min_area` are skipped, the rest are
turned into records in discovery order. -/
def ColorFilter.survivingObjects (cv : CvOracle) (s : ColorFilter)
    (contours : List Contour) : List DetectedObject :=
  (contours.filter (fun c => !decide (cv.contourArea c < s.min_area))).map
    (ColorFilter.objectOf cv s.target_color)

/-- Stable insertion of a record into a list sorted by descending area:
the record goes in front of the first element whose area does not
exceed its own. -/
def insertByAreaDesc (x : DetectedObject) : List DetectedObject → List DetectedObject
  | [] => [x]
  | y :: ys => if y.area ≤ x.area then x :: y :: ys else y :: insertByAreaDesc x ys

/-- `objects.sort(key=lambda obj: obj["area"], reverse=True)`: the
stable descending sort by area (Python's sort is stable; elements with
equal keys keep their original relative order). -/
def sortByAreaDesc : List DetectedObject → List DetectedObject
  | [] => []
  | x :: xs => insertByAreaDesc x (sortByAreaDesc xs)

/-- `ColorFilter.find_colored_objects(frame, mask)`: when no mask is
supplied one is created from the frame; the mask's external contours
are found, filtered by area, converted to records, and sorted by
descending area. -/
def ColorFilter.find_colored_objects (cv : CvOracle) (s : ColorFilter)
    (frame : Frame) (mask? : Option Mask) : List DetectedObject :=
  let mask := mask?.getD (ColorFilter.create_mask cv s frame)
  sortByAreaDesc (ColorFilter.survivingObjects cv s (cv.findContours mask))

/-- Method-call view of `create_mask`: its body reads `self.target_color`
but assigns no attribute, so the translated call returns the result
together with the unchanged object state. -/
def ColorFilter.create_mask_call (cv : CvOracle) (s : ColorFilter) (frame : Frame) :
    Mask × ColorFilter :=
  (ColorFilter.create_mask cv s frame, s)

/-- Method-call view of `find_colored_objects`: its body reads
`self.min_area` and `self.target_color` but assigns no attribute, so the
translated call returns the result together with the unchanged object
state. -/
def ColorFilter.find_colored_objects_call (cv : CvOracle) (s : ColorFilter)
    (frame : Frame) (mask? : Option Mask) : List DetectedObject × ColorFilter :=
  (ColorFilter.find_colored_objects cv s frame mask?, s)

/-- A YOLO detection box as read by `position_tracker.py`: the corner
coordinates `box.xyxy[0]` (floats, here exact rationals), the class id
`box.cls[0]` and the confidence `box.conf[0]`. -/
structure Box where
  x1 : ℚ
  y1 : ℚ
  x2 : ℚ
  y2 : ℚ
  cls : Int
  conf : ℚ
deriving DecidableEq

/-- The dict returned by `PositionTracker.extract_position`. -/
structure PositionInfo where
  center : Int × Int
  bbox : Int × Int × Int × Int
  width : Int
  height : Int
  area : Int
  class_id : Int
  confidence : ℚ
deriving DecidableEq

/-- `PositionTracker.extract_position(box)`, transcribed from
`position_tracker.py` lines 24-58. -/
def PositionTracker.extract_position (box : Box) : PositionInfo :=
  let center_x := pyInt ((box.x1 + box.x2) / 2)
  let center_y := pyInt ((box.y1 + box.y2) / 2)
  let width := pyInt (box.x2 - box.x1)
  let height := pyInt (box.y2 - box.y1)
  let area := width * height
  { center := (center_x, center_y),
    bbox := (pyInt box.x1, pyInt box.y1, pyInt box.x2, pyInt box.y2),
    width := width,
    height := height,
    area := area,
    class_id := box.cls,
    confidence := box.conf }

/-- Componentwise order on HSV triples. -/
abbrev hsvLE (a b : Pixel3) : Prop := a.1 ≤ b.1 ∧ a.2.1 ≤ b.2.1 ∧ a.2.2 ≤ b.2.2

/-- Membership of an HSV triple in the OpenCV HSV domain: hue 0-180,
saturation and value 0-255. -/
abbrev hsvInDomain (p : Pixel3) : Prop :=
  0 ≤ p.1 ∧ p.1 ≤ 180 ∧ 0 ≤ p.2.1 ∧ p.2.1 ≤ 255 ∧ 0 ≤ p.2.2 ∧ p.2.2 ≤ 255

/-- C7: every registered color name maps to at least one interval, every
interval's lower bound is componentwise at most its upper bound, and
every bound lies in the HSV domain (hue 0-180, saturation and value
0-255).  The table is a constant of the embedding, mirroring the
class-level dict that no code in the repository ever writes to. -/
theorem COLOR_RANGES_wf :
    ∀ p ∈ ColorFilter.COLOR_RANGES, p.2 ≠ [] ∧
      ∀ iv ∈ p.2, hsvLE iv.1 iv.2 ∧ hsvInDomain iv.1 ∧ hsvInDomain iv.2 := by
  decide

/-- Witness for C7: the theorem applied to the entry for red and its
first interval. -/
theorem COLOR_RANGES_wf_wit :
    hsvLE (0, 100, 100) (10, 255, 255) ∧
    hsvInDomain (0, 100, 100) ∧ hsvInDomain (10, 255, 255) :=
  (COLOR_RANGES_wf
      (("red"), [((0, 100, 100), (10, 255, 255)), ((160, 100, 100), (180, 255, 255))])
      (by decide)).2 ((0, 100, 100), (10, 255, 255)) (by decide)

/-- C1 counterexample: with current color red, calling `set_color` with
the unregistered name teal raises `ValueError`, but the stored target
color after the failed call is teal, not the previous valid color red:
the claim that the previous color is retained unchanged is false. -/
theorem set_color_unknown_overwrites_cx :
    (ColorFilter.set_color ⟨("red"), 500⟩ ("teal")).2 = some PyError.valueError ∧
    (ColorFilter.set_color ⟨("red"), 500⟩ ("teal")).1.target_color ≠ ("red") := by
  decide

/-- C1 as amended: if `set_color` is called with a color name whose
lowercasing is not in the registry, it fails with the unknown-color
error, and the stored target color after the failed call is the lowered
invalid name (the previous valid color is overwritten, not retained). -/
theorem set_color_unknown_raises_and_stores_lowered :
    ∀ (s : ColorFilter) (color : String),
      pyLower color ∉ ColorFilter.get_available_colors →
        ColorFilter.set_color s color =
          ({ s with target_color := pyLower color }, some PyError.valueError) := by
  intro s color h
  simp [ColorFilter.set_color, h]

/-- Witness for C1: the amended theorem applied to state red and the
unregistered name teal. -/
theorem set_color_unknown_raises_and_stores_lowered_wit :
    ColorFilter.set_color ⟨("red"), 500⟩ ("teal") =
      (⟨("teal"), 500⟩, some PyError.valueError) :=
  (set_color_unknown_raises_and_stores_lowered ⟨("red"), 500⟩ ("teal")
      (by decide)).trans (by decide)

/-- C10: the constructor and `set_color` lowercase the supplied name
before validating, so any capitalization whose lowered form is
registered is accepted and the stored color is that lowered form; and
every registered name is itself lowercase, so the stored color of a
validated state is always lowercase. -/
theorem color_names_case_insensitive :
    (∀ (s : ColorFilter) (color : String) (m : ℚ),
        pyLower color ∈ ColorFilter.get_available_colors →
          ColorFilter.set_color s color = ({ s with target_color := pyLower color }, none) ∧
          ColorFilter.init color m = ({ target_color := pyLower color, min_area := m }, none)) ∧
    (∀ r ∈ ColorFilter.get_available_colors, pyLower r = r) := by
  constructor
  · intro s color m h
    constructor
    · simp [ColorFilter.set_color, h]
    · simp [ColorFilter.init, h]
  · decide

/-- Witness for C10: the name RED is accepted by `set_color` and selects
red, and the registered name red is its own lowercase form. -/
theorem color_names_case_insensitive_wit :
    ColorFilter.set_color ⟨("blue"), 500⟩ ("RED") = (⟨("red"), 500⟩, none) ∧
    pyLower ("red") = ("red") := by
  constructor
  · exact ((color_names_case_insensitive.1 ⟨("blue"), 500⟩ ("RED") 500
      (by decide)).1).trans (by decide)
  · exact color_names_case_insensitive.2 ("red") (by decide)

/-- C2 counterexample: on the detection box (0, 0, 5/2, 4) the stored
width is the truncation 2, which differs from the exact difference
x2 - x1 = 5/2 asserted by the claim. -/
theorem extract_position_fractional_width_cx :
    (PositionTracker.extract_position ⟨0, 0, 5/2, 4, 7, 9/10⟩).width = 2 ∧
    ((2 : ℚ)) ≠ 5/2 - 0 := by
  constructor
  · show pyInt (5/2 - 0) = 2
    norm_num [pyInt]
  · norm_num

/-- C2 as amended: for every detection box, `extract_position` returns
center = ((x1+x2)/2, (y1+y2)/2) truncated to integers, width and height
the truncations of x2-x1 and y2-y1, areaPx = width*height, and classId
and confidence copied verbatim without clamping or validation; in
particular the box (10, 10, 30, 50) with classId 2 and confidence 9/10
yields center (20, 30), width 20, height 40, areaPx 800, classId 2 and
confidence 9/10. -/
theorem extract_position_fields :
    (∀ b : Box,
        (PositionTracker.extract_position b).center =
          (pyInt ((b.x1 + b.x2) / 2), pyInt ((b.y1 + b.y2) / 2)) ∧
        (PositionTracker.extract_position b).width = pyInt (b.x2 - b.x1) ∧
        (PositionTracker.extract_position b).height = pyInt (b.y2 - b.y1) ∧
        (PositionTracker.extract_position b).area =
          (PositionTracker.extract_position b).width *
            (PositionTracker.extract_position b).height ∧
        (PositionTracker.extract_position b).class_id = b.cls ∧
        (PositionTracker.extract_position b).confidence = b.conf) ∧
    PositionTracker.extract_position ⟨10, 10, 30, 50, 2, 9/10⟩ =
      { center := (20, 30), bbox := (10, 10, 30, 50), width := 20, height := 40,
        area := 800, class_id := 2, confidence := 9/10 } := by
  constructor
  · intro b
    exact ⟨rfl, rfl, rfl, rfl, rfl, rfl⟩
  · simp [PositionTracker.extract_position, pyInt]
    norm_num

/-- Membership in the stable insertion is membership in the inserted
element or the list. -/
theorem mem_insertByAreaDesc {x a : DetectedObject} {l : List DetectedObject} :
    a ∈ insertByAreaDesc x l ↔ a = x ∨ a ∈ l := by
  induction l with
  | nil => simp [insertByAreaDesc]
  | cons y ys ih =>
    simp only [insertByAreaDesc]
    split
    · simp [List.mem_cons]
    · simp only [List.mem_cons, ih]
      tauto

/-- The sort is a reordering: it has exactly the members of its input. -/
theorem mem_sortByAreaDesc {a : DetectedObject} {l : List DetectedObject} :
    a ∈ sortByAreaDesc l ↔ a ∈ l := by
  induction l with
  | nil => simp [sortByAreaDesc]
  | cons x xs ih => simp [sortByAreaDesc, mem_insertByAreaDesc, ih]

/-- Inserting into a list sorted by descending area keeps it sorted. -/
theorem pairwise_insertByAreaDesc {x : DetectedObject} {l : List DetectedObject}
    (h : l.Pairwise (fun a b => b.area ≤ a.area)) :
    (insertByAreaDesc x l).Pairwise (fun a b => b.area ≤ a.area) := by
  induction l with
  | nil => simp [insertByAreaDesc]
  | cons y ys ih =>
    rcases List.pairwise_cons.mp h with ⟨hy, hys⟩
    simp only [insertByAreaDesc]
    split
    · rename_i hle
      refine List.pairwise_cons.mpr ⟨?_, h⟩
      intro b hb
      rcases List.mem_cons.mp hb with rfl | hb
      · exact hle
      · exact le_trans (hy b hb) hle
    · rename_i hlt
      refine List.pairwise_cons.mpr ⟨?_, ih hys⟩
      intro b hb
      rcases mem_insertByAreaDesc.mp hb with rfl | hb
      · exact le_of_not_le hlt
      · exact hy b hb

/-- The sorted output is pairwise ordered by descending area. -/
theorem pairwise_sortByAreaDesc (l : List DetectedObject) :
    (sortByAreaDesc l).Pairwise (fun a b => b.area ≤ a.area) := by
  induction l with
  | nil => simp [sortByAreaDesc]
  | cons x xs ih =>
    simp only [sortByAreaDesc]
    exact pairwise_insertByAreaDesc ih

/-- Stability of the insertion step: restricting to any one area value,
the inserted element lands in front of the equal-area elements already
present, and nothing else moves. -/
theorem filter_insertByAreaDesc (v : ℚ) (x : DetectedObject) (l : List DetectedObject) :
    (insertByAreaDesc x l).filter (fun o => decide (o.area = v)) =
      if x.area = v then x :: l.filter (fun o => decide (o.area = v))
      else l.filter (fun o => decide (o.area = v)) := by
  induction l with
  | nil =>
    by_cases hx : x.area = v <;> simp [insertByAreaDesc, List.filter_cons, hx]
  | cons y ys ih =>
    simp only [insertByAreaDesc]
    split
    · by_cases hx : x.area = v <;> simp [List.filter_cons, hx]
    · rename_i hlt
      by_cases hx : x.area = v
      · have hy : ¬ (y.area = v) := fun hv => hlt (le_of_eq (hv.trans hx.symm))
        simp [List.filter_cons, hx, hy, ih]
      · simp [List.filter_cons, hx, ih]

/-- Stability of the sort: restricting to any one area value, the sort
returns exactly the input sublist of that area, in input order. -/
theorem filter_sortByAreaDesc (v : ℚ) (l : List DetectedObject) :
    (sortByAreaDesc l).filter (fun o => decide (o.area = v)) =
      l.filter (fun o => decide (o.area = v)) := by
  induction l with
  | nil => rfl
  | cons x xs ih =>
    simp only [sortByAreaDesc, filter_insertByAreaDesc, ih, List.filter_cons]
    by_cases hx : x.area = v <;> simp [hx]

/-- The records surviving the area filter are exactly the images of the
input contours whose area reaches the threshold. -/
theorem mem_survivingObjects {cv : CvOracle} {s : ColorFilter}
    {contours : List Contour} {o : DetectedObject} :
    o ∈ ColorFilter.survivingObjects cv s contours ↔
      ∃ c, c ∈ contours ∧ s.min_area ≤ cv.contourArea c ∧
        ColorFilter.objectOf cv s.target_color c = o := by
  simp [ColorFilter.survivingObjects, List.mem_filter, not_lt, and_assoc]

/-- Truncation of a nonnegative integer-plus-half-integer value agrees
with the floor division used by the source fallback branch. -/
theorem pyInt_int_add_half (x w : Int) (hx : 0 ≤ x) (hw : 0 ≤ w) :
    pyInt ((x : ℚ) + (w : ℚ) / 2) = x + Int.fdiv w 2 := by
  have hx' : (0 : ℚ) ≤ (x : ℚ) := by exact_mod_cast hx
  have hw' : (0 : ℚ) ≤ (w : ℚ) := by exact_mod_cast hw
  have hq : (0 : ℚ) ≤ (x : ℚ) + (w : ℚ) / 2 := by linarith
  rw [pyInt, if_pos hq]
  have h2 := Rat.floor_intCast_div_natCast w 2
  push_cast at h2
  rw [Int.floor_int_add, h2, Int.fdiv_eq_ediv w (by decide)]

/-- C3: every record returned by `find_colored_objects` has area at
least the configured minimum-area threshold. -/
theorem find_colored_objects_min_area :
    ∀ (cv : CvOracle) (s : ColorFilter) (frame : Frame) (mask : Mask)
      (o : DetectedObject),
      o ∈ ColorFilter.find_colored_objects cv s frame (some mask) →
        s.min_area ≤ o.area := by
  intro cv s frame mask o ho
  simp only [ColorFilter.find_colored_objects, Option.getD_some] at ho
  rcases mem_survivingObjects.mp (mem_sortByAreaDesc.mp ho) with ⟨c, _, hge, rfl⟩
  simpa [ColorFilter.objectOf] using hge

/-- A concrete oracle used by the witnesses: one single-point contour of
area 600 on the mask with a single set pixel, with bounding rectangle
(0, 0, 4, 4) and zero mass. -/
def cvW : CvOracle :=
  { cvtColor := fun f => f,
    morphOpen := fun m => m,
    morphClose := fun m => m,
    findContours := fun m => if m = [[true]] then [[(0, 0)]] else [],
    contourArea := fun _ => 600,
    boundingRect := fun _ => (0, 0, 4, 4),
    moments := fun _ => (0, 0, 0) }

/-- Witness for C3: on the concrete oracle with threshold 500 the single
returned record has area 600, at least 500. -/
theorem find_colored_objects_min_area_wit :
    (500 : ℚ) ≤
      ({ center := (2, 2), area := 600, bbox := (0, 0, 4, 4), contour := [(0, 0)],
         color := ("red") } : DetectedObject).area :=
  find_colored_objects_min_area cvW ⟨("red"), 500⟩ [] [[true]]
    { center := (2, 2), area := 600, bbox := (0, 0, 4, 4), contour := [(0, 0)],
      color := ("red") }
    (by decide)

/-- C4: raising the minimum-area threshold can only shrink the result
set: on the same mask, every record returned at threshold b is also
returned at any threshold a at most b. -/
theorem find_colored_objects_threshold_mono :
    ∀ (cv : CvOracle) (color : String) (a b : ℚ) (frame : Frame) (mask : Mask)
      (o : DetectedObject), a ≤ b →
      o ∈ ColorFilter.find_colored_objects cv ⟨color, b⟩ frame (some mask) →
        o ∈ ColorFilter.find_colored_objects cv ⟨color, a⟩ frame (some mask) := by
  intro cv color a b frame mask o hab ho
  simp only [ColorFilter.find_colored_objects, Option.getD_some] at ho ⊢
  rw [mem_sortByAreaDesc] at ho ⊢
  rcases mem_survivingObjects.mp ho with ⟨c, hc, hge, rfl⟩
  exact mem_survivingObjects.mpr ⟨c, hc, le_trans hab hge, rfl⟩

/-- Witness for C4: the record returned at threshold 500 is also
returned at the lower threshold 400. -/
theorem find_colored_objects_threshold_mono_wit :
    ({ center := (2, 2), area := 600, bbox := (0, 0, 4, 4), contour := [(0, 0)],
       color := ("red") } : DetectedObject) ∈
      ColorFilter.find_colored_objects cvW ⟨("red"), 400⟩ [] (some [[true]]) :=
  find_colored_objects_threshold_mono cvW ("red") 400 500 [] [[true]]
    { center := (2, 2), area := 600, bbox := (0, 0, 4, 4), contour := [(0, 0)],
      color := ("red") }
    (by norm_num) (by decide)

/-- C5: the returned sequence is sorted by area in descending order, and
the sort is stable: restricted to any one area value it is exactly the
surviving records in their discovery order. -/
theorem find_colored_objects_sorted_stable :
    ∀ (cv : CvOracle) (s : ColorFilter) (frame : Frame) (mask : Mask),
      (ColorFilter.find_colored_objects cv s frame (some mask)).Pairwise
        (fun a b => b.area ≤ a.area) ∧
      ∀ v : ℚ,
        (ColorFilter.find_colored_objects cv s frame (some mask)).filter
            (fun o => decide (o.area = v)) =
          (ColorFilter.survivingObjects cv s (cv.findContours mask)).filter
            (fun o => decide (o.area = v)) := by
  intro cv s frame mask
  constructor
  · simpa [ColorFilter.find_colored_objects] using
      pairwise_sortByAreaDesc (ColorFilter.survivingObjects cv s (cv.findContours mask))
  · intro v
    simpa [ColorFilter.find_colored_objects] using
      filter_sortByAreaDesc v (ColorFilter.survivingObjects cv s (cv.findContours mask))

/-- C6: every returned record's center is the truncated moment centroid
(m10/m00, m01/m00) of its contour, and exactly when m00 = 0 it is
instead the truncated bounding-box geometric center (x + w/2, y + h/2);
bounding-rectangle components are nonnegative for real masks, which the
truncation/floor agreement uses. -/
theorem find_colored_objects_centroid :
    ∀ (cv : CvOracle) (s : ColorFilter) (frame : Frame) (mask : Mask)
      (o : DetectedObject) (x y w h : Int) (m00 m10 m01 : ℚ),
      o ∈ ColorFilter.find_colored_objects cv s frame (some mask) →
      cv.boundingRect o.contour = (x, y, w, h) →
      cv.moments o.contour = (m00, m10, m01) →
      0 ≤ x → 0 ≤ y → 0 ≤ w → 0 ≤ h →
      (m00 ≠ 0 → o.center = (pyInt (m10 / m00), pyInt (m01 / m00))) ∧
      (m00 = 0 →
        o.center = (pyInt ((x : ℚ) + (w : ℚ) / 2), pyInt ((y : ℚ) + (h : ℚ) / 2))) := by
  intro cv s frame mask o x y w h m00 m10 m01 ho hbr hm hx hy hw hh
  simp only [ColorFilter.find_colored_objects, Option.getD_some] at ho
  rcases mem_survivingObjects.mp (mem_sortByAreaDesc.mp ho) with ⟨c, _, _, rfl⟩
  have hcontour : (ColorFilter.objectOf cv s.target_color c).contour = c := rfl
  rw [hcontour] at hbr hm
  constructor
  · intro hm00
    simp [ColorFilter.objectOf, hm, hbr, hm00]
  · intro hm00
    have e1 := pyInt_int_add_half x w hx hw
    have e2 := pyInt_int_add_half y h hy hh
    simp [ColorFilter.objectOf, hm, hbr, hm00, e1, e2]

/-- Witness for C6: the centroid characterization applied to the record
produced by the concrete oracle, whose contour has zero mass, so its
center is the truncated bounding-box geometric center. -/
theorem find_colored_objects_centroid_wit :
    ((0 : ℚ) ≠ 0 →
      ({ center := (2, 2), area := 600, bbox := (0, 0, 4, 4), contour := [(0, 0)],
         color := ("red") } : DetectedObject).center =
        (pyInt ((0 : ℚ) / 0), pyInt ((0 : ℚ) / 0))) ∧
    ((0 : ℚ) = 0 →
      ({ center := (2, 2), area := 600, bbox := (0, 0, 4, 4), contour := [(0, 0)],
         color := ("red") } : DetectedObject).center =
        (pyInt (((0 : Int) : ℚ) + ((4 : Int) : ℚ) / 2),
         pyInt (((0 : Int) : ℚ) + ((4 : Int) : ℚ) / 2))) :=
  find_colored_objects_centroid cvW ⟨("red"), 500⟩ [] [[true]]
    { center := (2, 2), area := 600, bbox := (0, 0, 4, 4), contour := [(0, 0)],
      color := ("red") }
    0 0 4 4 0 0 0 (by decide) (by decide) (by decide) (by decide) (by decide)
    (by decide) (by decide)

/-- C8: extraction on a degenerate mask succeeds with an empty result:
if the contour scan of the mask finds no contour (as on an all-absent
mask), the result is the empty list, and if every found contour has
area below the threshold, the result is likewise empty; no error path
exists in the function. -/
theorem find_colored_objects_degenerate :
    ∀ (cv : CvOracle) (s : ColorFilter) (frame : Frame) (mask : Mask),
      (cv.findContours mask = [] →
        ColorFilter.find_colored_objects cv s frame (some mask) = []) ∧
      ((∀ c ∈ cv.findContours mask, cv.contourArea c < s.min_area) →
        ColorFilter.find_colored_objects cv s frame (some mask) = []) := by
  intro cv s frame mask
  constructor
  · intro h
    simp [ColorFilter.find_colored_objects, h, ColorFilter.survivingObjects,
      sortByAreaDesc]
  · intro h
    have hnil : (cv.findContours mask).filter
        (fun c => !decide (cv.contourArea c < s.min_area)) = [] := by
      rw [List.filter_eq_nil_iff]
      intro c hc
      simp [h c hc]
    simp [ColorFilter.find_colored_objects, ColorFilter.survivingObjects, hnil,
      sortByAreaDesc]

/-- Witness for C8: on the concrete oracle, the mask without set pixels
yields no contour and an empty result, and with threshold 1000 the one
contour of area 600 is discarded, again yielding an empty result. -/
theorem find_colored_objects_degenerate_wit :
    ColorFilter.find_colored_objects cvW ⟨("red"), 500⟩ [] (some [[false]]) = [] ∧
    ColorFilter.find_colored_objects cvW ⟨("red"), 1000⟩ [] (some [[true]]) = [] :=
  ⟨(find_colored_objects_degenerate cvW ⟨("red"), 500⟩ [] [[false]]).1 (by decide),
   (find_colored_objects_degenerate cvW ⟨("red"), 1000⟩ [] [[true]]).2 (by decide)⟩

/-- C9: the method-call views of `create_mask` and
`find_colored_objects` return the object state unchanged: neither body
assigns any attribute, so the current target color and minimum-area
threshold after the call are exactly what they were before; frames and
masks are passed and returned by value in the embedding, matching the
absence of any in-place write to the input frame in the source. -/
theorem method_calls_preserve_state :
    ∀ (cv : CvOracle) (s : ColorFilter) (frame : Frame) (mask? : Option Mask),
      (ColorFilter.create_mask_call cv s frame).2 = s ∧
      (ColorFilter.find_colored_objects_call cv s frame mask?).2 = s := by
  intro cv s frame m
  exact ⟨rfl, rfl⟩
